import Mathlib

/-!
Shallow embedding of the NexusControl backend's bot container orchestration
subsystem (docker.service.ts, bots.service.ts, analytics.service.ts), with
theorems checking the natural-language specification against the code.
-/

namespace NexusControl

/-! ## Container Runtime Client (docker.service.ts)

Engine calls are modelled by their raw outcome: `Except DockerErr α` where
`DockerErr` carries the HTTP status code dockerode attaches to engine errors.
Each wrapper below mirrors the try/catch normalization in docker.service.ts. -/

/-- Equality of engine-call outcomes is decidable. -/
instance {ε α : Type} [DecidableEq ε] [DecidableEq α] :
    DecidableEq (Except ε α) := fun x y =>
  match x, y with
  | .ok a, .ok b =>
    if h : a = b then isTrue (by rw [h])
    else isFalse (by intro hh; cases hh; exact h rfl)
  | .error a, .error b =>
    if h : a = b then isTrue (by rw [h])
    else isFalse (by intro hh; cases hh; exact h rfl)
  | .ok _, .error _ => isFalse (by intro hh; cases hh)
  | .error _, .ok _ => isFalse (by intro hh; cases hh)

/-- An error raised by the container engine, as seen by dockerode
(`error.statusCode`). -/
structure DockerErr where
  statusCode : Nat
deriving DecidableEq, Repr

/-- `stopContainer` (docker.service.ts:131-144): swallows `304`
(container already stopped), rethrows every other engine error. -/
def stopContainer (engineCall : Except DockerErr Unit) : Except DockerErr Unit :=
  match engineCall with
  | .ok () => .ok ()
  | .error e => if e.statusCode = 304 then .ok () else .error e

/-- `removeContainer` (docker.service.ts:157-170): swallows `404`
(container doesn't exist), rethrows every other engine error. -/
def removeContainer (engineCall : Except DockerErr Unit) : Except DockerErr Unit :=
  match engineCall with
  | .ok () => .ok ()
  | .error e => if e.statusCode = 404 then .ok () else .error e

/-- `startContainer` (docker.service.ts:120-129): logs and rethrows every
engine error, no normalization. -/
def startContainer (engineCall : Except DockerErr Unit) : Except DockerErr Unit :=
  engineCall

/-- `restartContainer` (docker.service.ts:146-155): logs and rethrows every
engine error, no normalization. -/
def restartContainer (engineCall : Except DockerErr Unit) : Except DockerErr Unit :=
  engineCall

/-- The container states reported by `getContainerStatus`. -/
inductive CtrState
  | running
  | exited
  | created
  | unknown
deriving DecidableEq, Repr

/-- `getContainerStatus` (docker.service.ts:172-185): maps `404` to
`unknown`, rethrows other errors, otherwise reports the inspected state. -/
def getContainerStatus (engineCall : Except DockerErr CtrState) :
    Except DockerErr CtrState :=
  match engineCall with
  | .ok st => .ok st
  | .error e => if e.statusCode = 404 then .ok .unknown else .error e

/-! ## Container stats (docker.service.ts:187-213)

JavaScript numbers are modelled as rationals; `Math.round` is `⌊x + 1/2⌋`. -/

/-- The fields of the engine's stats reply that `getContainerStats` reads. -/
structure RawStats where
  cpuTotalUsage : ℚ
  precpuTotalUsage : ℚ
  systemCpuUsage : ℚ
  preSystemCpuUsage : ℚ
  onlineCpus : Nat
  memUsage : ℚ
  memLimit : ℚ

/-- The stats record returned to callers. -/
structure ContainerStats where
  cpuUsage : ℚ
  memoryUsage : ℚ
  memoryLimit : ℚ
deriving DecidableEq, Repr

/-- JavaScript `Math.round(x * 100) / 100`, the two-decimal rounding used
throughout docker.service.ts. `Math.round` rounds half toward +∞. -/
def round2 (q : ℚ) : ℚ := (⌊q * 100 + 1/2⌋ : ℚ) / 100

/-- `getContainerStats` (docker.service.ts:187-213): on any retrieval error
returns `none`; otherwise computes the CPU percentage from the two
consecutive samples, defaulting `online_cpus` to 1 when falsy (0), and
converts memory figures to MB, all rounded to two decimals. -/
def getContainerStats (engineCall : Except DockerErr RawStats) :
    Option ContainerStats :=
  match engineCall with
  | .error _ => none
  | .ok s =>
    let cpuDelta := s.cpuTotalUsage - s.precpuTotalUsage
    let systemDelta := s.systemCpuUsage - s.preSystemCpuUsage
    let cpuCount : ℚ := if s.onlineCpus = 0 then 1 else (s.onlineCpus : ℚ)
    let cpuUsage := if systemDelta > 0 then cpuDelta / systemDelta * cpuCount * 100 else 0
    some { cpuUsage := round2 cpuUsage
           memoryUsage := round2 (s.memUsage / (1024 * 1024))
           memoryLimit := round2 (s.memLimit / (1024 * 1024)) }

/-- C3 counterexample: stopping an absent container (engine "not found",
status code 404) is surfaced to the caller as an error by `stopContainer`,
which only swallows 304; so the claim that no "not found" engine condition
is ever surfaced as an error by any Runtime Client operation is false. -/
theorem stopContainer_surfaces_notFound :
    stopContainer (.error ⟨404⟩) = .error ⟨404⟩ ∧
      stopContainer (.error ⟨404⟩) ≠ .ok () :=
  ⟨rfl, by simp [stopContainer]⟩

/-- C3 (amended): stopping an already-stopped container (304) and removing
an already-absent container (404) succeed silently, and `getContainerStatus`
maps 404 to `unknown`; but `stopContainer` propagates every non-304 error
(404 included), `removeContainer` propagates every non-404 error, and
`startContainer`/`restartContainer` propagate all errors including 404. -/
theorem runtimeClient_idempotence :
    stopContainer (.error ⟨304⟩) = .ok () ∧
    removeContainer (.error ⟨404⟩) = .ok () ∧
    getContainerStatus (.error ⟨404⟩) = .ok .unknown ∧
    (∀ e : DockerErr, e.statusCode ≠ 304 → stopContainer (.error e) = .error e) ∧
    (∀ e : DockerErr, e.statusCode ≠ 404 → removeContainer (.error e) = .error e) ∧
    startContainer (.error ⟨404⟩) = .error ⟨404⟩ ∧
    restartContainer (.error ⟨404⟩) = .error ⟨404⟩ := by
  refine ⟨rfl, rfl, rfl, fun e he => ?_, fun e he => ?_, rfl, rfl⟩
  · simp [stopContainer, he]
  · simp [removeContainer, he]

/-- Witness for `runtimeClient_idempotence`: its hypotheses are satisfied
at the concrete engine error with status code 500. -/
theorem runtimeClient_idempotence_witness :
    stopContainer (.error ⟨500⟩) = .error ⟨500⟩ ∧
      removeContainer (.error ⟨500⟩) = .error ⟨500⟩ :=
  ⟨runtimeClient_idempotence.2.2.2.1 ⟨500⟩ (by decide),
   runtimeClient_idempotence.2.2.2.2.1 ⟨500⟩ (by decide)⟩

/-- C6: `getContainerStats` returns `none` on any retrieval failure; when
the stats fetch succeeds and `systemDelta > 0` the CPU percentage is
`(cpuDelta / systemDelta) * onlineCpuCount * 100` (rounded to two
decimals); when `systemDelta ≤ 0` it is clamped to 0; and at
cpuDelta = 200, systemDelta = 1000, onlineCpus = 4 it is exactly 80. -/
theorem getContainerStats_spec :
    (∀ e, getContainerStats (.error e) = none) ∧
    (∀ s : RawStats, s.onlineCpus ≠ 0 →
      s.systemCpuUsage - s.preSystemCpuUsage > 0 →
      (getContainerStats (.ok s)).map ContainerStats.cpuUsage
        = some (round2 ((s.cpuTotalUsage - s.precpuTotalUsage)
            / (s.systemCpuUsage - s.preSystemCpuUsage) * s.onlineCpus * 100))) ∧
    (∀ s : RawStats, s.systemCpuUsage - s.preSystemCpuUsage ≤ 0 →
      (getContainerStats (.ok s)).map ContainerStats.cpuUsage = some 0) ∧
    (getContainerStats (.ok ⟨200, 0, 1000, 0, 4, 0, 0⟩)).map ContainerStats.cpuUsage
      = some 80 := by
  refine ⟨fun e => rfl, fun s hn hd => ?_, fun s hd => ?_, ?_⟩
  · simp [getContainerStats, hn, hd]
  · have hd' : ¬ (s.systemCpuUsage - s.preSystemCpuUsage > 0) := not_lt.mpr hd
    simp only [getContainerStats, hd', if_false, Option.map_some']
    norm_num [round2]
  · simp only [getContainerStats, Option.map_some']
    norm_num [round2]

/-- Witness for `getContainerStats_spec`: its hypotheses are satisfied at
the concrete raw stats sample (200, 0, 1000, 0, 4 CPUs). -/
theorem getContainerStats_spec_witness :
    (getContainerStats (.ok ⟨200, 0, 1000, 0, 4, 0, 0⟩)).map ContainerStats.cpuUsage
        = some (round2 ((200 - 0) / (1000 - 0) * (4 : ℕ) * 100)) ∧
      (getContainerStats (.ok ⟨200, 0, 1000, 1000, 4, 0, 0⟩)).map ContainerStats.cpuUsage
        = some 0 :=
  ⟨getContainerStats_spec.2.1 ⟨200, 0, 1000, 0, 4, 0, 0⟩ (by decide) (by norm_num),
   getContainerStats_spec.2.2.1 ⟨200, 0, 1000, 1000, 4, 0, 0⟩ (by norm_num)⟩

/-! ## Bot Lifecycle Controller (bots.service.ts)

The per-bot persisted state is (status, containerId, lastStartedAt,
lastStoppedAt); time stamps are abstract Nat ticks.  Each lifecycle
operation is parameterized by the raw engine outcomes of the container
calls it performs, threaded through the Runtime Client wrappers above.
Database writes are modelled as always succeeding (prisma calls in the
source are not guarded). -/

/-- `BotStatus` enum (prisma migration). -/
inductive BotStatus
  | STOPPED
  | STARTING
  | RUNNING
  | STOPPING
  | ERROR
  | RESTARTING
deriving DecidableEq, Repr

/-- The persisted per-bot lifecycle state read and written by
bots.service.ts. -/
structure BotState where
  status : BotStatus
  containerId : Option String
  lastStartedAt : Option Nat
  lastStoppedAt : Option Nat
deriving DecidableEq, Repr

/-- Errors thrown by the lifecycle operations. -/
inductive LifecycleErr
  | notFound
  | alreadyRunning
  | noContainer
  | docker (e : DockerErr)
deriving DecidableEq, Repr

/-- Raw engine outcomes of the calls `startBot` can make, plus the clock. -/
structure StartEnv where
  removeOld : Except DockerErr Unit
  create : Except DockerErr String
  start : Except DockerErr Unit
  now : Nat

/-- `startBot` (bots.service.ts:335-400): reject when already RUNNING (no
state change); set STARTING; remove the stale container if any
(`removeContainer`, 404-normalized); create and start a new container; on
success persist the new containerId, status RUNNING and `lastStartedAt`;
on any failure persist status ERROR (containerId untouched) and rethrow. -/
def startBot (env : StartEnv) (s : BotState) :
    Except LifecycleErr Unit × BotState :=
  if s.status = .RUNNING then (.error .alreadyRunning, s)
  else
    let s1 := { s with status := .STARTING }
    let removeStep : Except DockerErr Unit :=
      match s1.containerId with
      | some _ => removeContainer env.removeOld
      | none => .ok ()
    match removeStep with
    | .error e => (.error (.docker e), { s1 with status := .ERROR })
    | .ok () =>
      match env.create with
      | .error e => (.error (.docker e), { s1 with status := .ERROR })
      | .ok cid =>
        match startContainer env.start with
        | .error e => (.error (.docker e), { s1 with status := .ERROR })
        | .ok () =>
          (.ok (), { s1 with
                       status := .RUNNING
                       containerId := some cid
                       lastStartedAt := some env.now })

/-- Raw engine outcome of the one call `stopBot` makes, plus the clock. -/
structure StopEnv where
  stop : Except DockerErr Unit
  now : Nat

/-- `stopBot` (bots.service.ts:402-448): reject when no containerId (no
state change); set STOPPING; stop the container (`stopContainer`,
304-normalized); on success persist status STOPPED and `lastStoppedAt`
(containerId is NOT cleared); on failure persist status ERROR and
rethrow. -/
def stopBot (env : StopEnv) (s : BotState) :
    Except LifecycleErr Unit × BotState :=
  match s.containerId with
  | none => (.error .noContainer, s)
  | some _ =>
    let s1 := { s with status := .STOPPING }
    match stopContainer env.stop with
    | .error e => (.error (.docker e), { s1 with status := .ERROR })
    | .ok () =>
      (.ok (), { s1 with status := .STOPPED, lastStoppedAt := some env.now })

/-- Raw engine outcome of the one call `restartBot` makes, plus the clock. -/
structure RestartEnv where
  restart : Except DockerErr Unit
  now : Nat

/-- `restartBot` (bots.service.ts:450-496): reject when no containerId;
set RESTARTING; restart the container in place; on success persist status
RUNNING and `lastStartedAt`; on failure persist status ERROR and rethrow. -/
def restartBot (env : RestartEnv) (s : BotState) :
    Except LifecycleErr Unit × BotState :=
  match s.containerId with
  | none => (.error .noContainer, s)
  | some _ =>
    let s1 := { s with status := .RESTARTING }
    match restartContainer env.restart with
    | .error e => (.error (.docker e), { s1 with status := .ERROR })
    | .ok () =>
      (.ok (), { s1 with status := .RUNNING, lastStartedAt := some env.now })

/-- A freshly created bot record (bots.service.ts:207-239, prisma defaults):
status STOPPED, no containerId, no timestamps. -/
def initBotState : BotState := ⟨.STOPPED, none, none, none⟩

/-- The bot states reachable from creation through the lifecycle
operations (`updateBot` cannot touch status or containerId — they are not
in `updateBotSchema`). -/
inductive Reachable : BotState → Prop
  | init : Reachable initBotState
  | start (env : StartEnv) {s : BotState} :
      Reachable s → Reachable (startBot env s).2
  | stop (env : StopEnv) {s : BotState} :
      Reachable s → Reachable (stopBot env s).2
  | restart (env : RestartEnv) {s : BotState} :
      Reachable s → Reachable (restartBot env s).2

/-- Invariant of reachable states: a bot with no containerId rests in
STOPPED or ERROR, and no reachable state rests mid-transition. -/
theorem reachable_inv {s : BotState} (h : Reachable s) :
    (s.containerId = none → s.status = .STOPPED ∨ s.status = .ERROR) ∧
      (s.status = .STOPPED ∨ s.status = .RUNNING ∨ s.status = .ERROR) := by
  induction h with
  | init => exact ⟨fun _ => Or.inl rfl, Or.inl rfl⟩
  | start env h ih =>
    rename_i s
    unfold startBot
    by_cases hr : s.status = .RUNNING
    · simpa [hr] using ih
    · simp only [hr, if_false]
      rcases hc : s.containerId with _ | cid <;>
        rcases env.create with e | cid' <;>
        rcases hst : startContainer env.start with e' | u <;>
        rcases hrm : removeContainer env.removeOld with e'' | u'' <;>
        simp_all
  | stop env h ih =>
    rename_i s
    unfold stopBot
    rcases hc : s.containerId with _ | cid
    · simpa [hc] using ih
    · rcases hst : stopContainer env.stop with e | u <;> simp_all
  | restart env h ih =>
    rename_i s
    unfold restartBot
    rcases hc : s.containerId with _ | cid
    · simpa [hc] using ih
    · rcases hst : restartContainer env.restart with e | u <;> simp_all

/-- C1: after any `startBot` call returns (success or failure) the
persisted status is RUNNING or ERROR, never STARTING; after any `stopBot`
call on a reachable state returns, the persisted status is STOPPED or
ERROR, never STOPPING. -/
theorem lifecycle_post_status :
    (∀ (env : StartEnv) (s : BotState),
      (startBot env s).2.status = .RUNNING ∨ (startBot env s).2.status = .ERROR) ∧
    (∀ (env : StopEnv) (s : BotState), Reachable s →
      (stopBot env s).2.status = .STOPPED ∨ (stopBot env s).2.status = .ERROR) := by
  constructor
  · intro env s
    unfold startBot
    by_cases hr : s.status = .RUNNING
    · simp [hr]
    · simp only [hr, if_false]
      rcases s.containerId with _ | cid <;>
        rcases env.create with e | cid' <;>
        rcases startContainer env.start with e' | u <;>
        rcases removeContainer env.removeOld with e'' | u'' <;>
        simp
  · intro env s hs
    unfold stopBot
    rcases hc : s.containerId with _ | cid
    · have := (reachable_inv hs).1 hc
      simpa [hc] using this
    · rcases stopContainer env.stop with e | u <;> simp

/-- Witness for `lifecycle_post_status`: applied at a concrete reachable
state (a bot started successfully from creation) and a concrete stop
environment. -/
theorem lifecycle_post_status_witness :
    ((startBot ⟨.ok (), .ok "c1", .ok (), 1⟩ initBotState).2.status = .RUNNING ∨
      (startBot ⟨.ok (), .ok "c1", .ok (), 1⟩ initBotState).2.status = .ERROR) ∧
    ((stopBot ⟨.ok (), 2⟩ (startBot ⟨.ok (), .ok "c1", .ok (), 1⟩ initBotState).2).2.status = .STOPPED ∨
      (stopBot ⟨.ok (), 2⟩ (startBot ⟨.ok (), .ok "c1", .ok (), 1⟩ initBotState).2).2.status = .ERROR) :=
  ⟨lifecycle_post_status.1 ⟨.ok (), .ok "c1", .ok (), 1⟩ initBotState,
   lifecycle_post_status.2 ⟨.ok (), 2⟩ _
     (Reachable.start ⟨.ok (), .ok "c1", .ok (), 1⟩ Reachable.init)⟩

/-- The containerId invariant claimed by the spec (§3), stated from the
spec's words: containerId is non-null only when status is one of STARTING,
RUNNING, STOPPING, RESTARTING or ERROR.  (The spec further restricts the
ERROR case to "while the container exists"; refuting this weaker form
refutes the claim.) -/
def claimedContainerIdInvariant (s : BotState) : Prop :=
  s.containerId ≠ none →
    s.status = .STARTING ∨ s.status = .RUNNING ∨ s.status = .STOPPING ∨
      s.status = .RESTARTING ∨ s.status = .ERROR

/-- The state of a bot that was created, started successfully (container
"c1" at tick 1) and then stopped successfully (tick 2). -/
def stoppedAfterRun : BotState := ⟨.STOPPED, some "c1", some 1, some 2⟩

/-- C2 counterexample: a successfully stopped bot is reachable with
status STOPPED and containerId still set to "c1" — `stopBot` never clears
containerId — so the claimed invariant fails at that state. -/
theorem containerId_invariant_counterexample :
    Reachable stoppedAfterRun ∧ ¬ claimedContainerIdInvariant stoppedAfterRun := by
  constructor
  · exact Reachable.stop ⟨.ok (), 2⟩
      (Reachable.start ⟨.ok (), .ok "c1", .ok (), 1⟩ Reachable.init)
  · intro h
    rcases h (by simp [stoppedAfterRun]) with h' | h' | h' | h' | h' <;>
      simp [stoppedAfterRun] at h'

/-- C2 (amended): containerId, once set, is never cleared by `stopBot`
(a successfully stopped bot keeps its containerId with status STOPPED);
the invariant that does hold on reachable states is the converse
direction: a null containerId implies status STOPPED or ERROR. -/
theorem containerId_invariant_amended :
    (∀ s : BotState, Reachable s → s.containerId = none →
      s.status = .STOPPED ∨ s.status = .ERROR) ∧
    (∀ (env : StopEnv) (s : BotState), (stopBot env s).2.containerId = s.containerId) := by
  constructor
  · intro s hs hc
    exact (reachable_inv hs).1 hc
  · intro env s
    rcases hc : s.containerId with _ | cid
    · simp [stopBot, hc]
    · rcases hst : stopContainer env.stop with e | u <;> simp [stopBot, hc, hst]

/-- Witness for `containerId_invariant_amended`: applied at the initial
state (reachable, containerId null) and a concrete stop call. -/
theorem containerId_invariant_amended_witness :
    (initBotState.status = .STOPPED ∨ initBotState.status = .ERROR) ∧
      (stopBot ⟨.ok (), 2⟩ stoppedAfterRun).2.containerId = stoppedAfterRun.containerId :=
  ⟨containerId_invariant_amended.1 initBotState Reachable.init rfl,
   containerId_invariant_amended.2 ⟨.ok (), 2⟩ stoppedAfterRun⟩

/-! ## Log Stream Multiplexer chunk decoder (docker.service.ts:253-304)

The data handler of `streamContainerLogs` is a pure function from a raw
chunk to the sequence of lines delivered to `onLog`, modelled over
`List Char` (JavaScript string ops mirrored directly). -/

/-- JavaScript `String.split('\n')`: splits on every newline, keeping
empty segments. -/
def splitOnNl : List Char → List (List Char)
  | [] => [[]]
  | c :: rest =>
    if c = '\n' then [] :: splitOnNl rest
    else
      match splitOnNl rest with
      | [] => [[c]]
      | l :: ls => (c :: l) :: ls

/-- The whitespace class of JavaScript's `\s` / `trim()` (ASCII part). -/
def isJsSpace (c : Char) : Bool :=
  c = ' ' || c = '\t' || c = '\n' || c = '\r' || c = '\x0b' || c = '\x0c'

/-- JavaScript `String.trim()`. -/
def trimJs (s : List Char) : List Char :=
  ((s.dropWhile isJsSpace).reverse.dropWhile isJsSpace).reverse

/-- Consume exactly `n` decimal digits (`\d{n}`). -/
def takeDigits : Nat → List Char → Option (List Char)
  | 0, s => some s
  | _ + 1, [] => none
  | n + 1, c :: s => if c.isDigit then takeDigits n s else none

/-- Consume exactly the character `c`. -/
def takeChar (c : Char) : List Char → Option (List Char)
  | [] => none
  | c' :: s => if c' = c then some s else none

/-- Consume the optional fraction `(\.\d+)?`: a dot followed by at least
one digit, greedily; otherwise consume nothing. -/
def takeFrac (s : List Char) : List Char :=
  match s with
  | '.' :: c :: rest => if c.isDigit then (c :: rest).dropWhile Char.isDigit else s
  | _ => s

/-- Match the anchored timestamp pattern
`^\d{4}-\d{2}-\d{2}T\d{2}:\d{2}:\d{2}(\.\d+)?Z\s*` and return the rest of
the line, or `none` when the pattern does not match. -/
def matchTs (s : List Char) : Option (List Char) :=
  ((((((((((takeDigits 4 s).bind (takeChar '-')).bind
      (takeDigits 2)).bind (takeChar '-')).bind
      (takeDigits 2)).bind (takeChar 'T')).bind
      (takeDigits 2)).bind (takeChar ':')).bind
      (takeDigits 2)).bind (takeChar ':')).bind
      (takeDigits 2) |>.map takeFrac |>.bind (takeChar 'Z')
    |>.map (·.dropWhile isJsSpace)

/-- `stripDockerTimestamp` (docker.service.ts:247-251): strip the leading
Docker timestamp when present, otherwise leave the line unchanged. -/
def stripDockerTimestamp (line : List Char) : List Char :=
  match matchTs line with
  | some rest => rest
  | none => line

/-- One line of the stream data handler (docker.service.ts:282-290): lines
of length ≤ 8 are dropped; otherwise the 8-byte engine header is stripped
(`substring(8)`), then any timestamp prefix; the line is delivered only if
non-blank after trimming. -/
def processLine (line : List Char) : Option (List Char) :=
  if line.length > 8 then
    let cleanLine := stripDockerTimestamp (line.drop 8)
    if trimJs cleanLine = [] then none else some cleanLine
  else none

/-- The full chunk handler (docker.service.ts:280-291): split the chunk on
newlines and deliver each surviving line to `onLog`, in order. -/
def decodeChunk (chunk : List Char) : List (List Char) :=
  (splitOnNl chunk).filterMap processLine

/-- The 8-byte engine header of the spec's example chunk (a Docker stdout
frame header). -/
def exampleHeader : List Char :=
  ['\x01', '\x00', '\x00', '\x00', '\x00', '\x00', '\x00', '\x25']

/-- The spec's example raw chunk:
`"<8-byte-header>2024-01-28T09:25:06.977069875Z hello\n"`. -/
def exampleChunk : List Char :=
  exampleHeader ++ "2024-01-28T09:25:06.977069875Z hello\n".data

/-- C5: on the spec's example chunk, `onLog` is invoked exactly once, with
exactly "hello"; in general every delivered line is non-blank and equals
some newline-separated segment of the chunk with its 8-byte header and
optional timestamp prefix stripped. -/
theorem decodeChunk_spec :
    decodeChunk exampleChunk = ["hello".data] ∧
    (∀ chunk line, line ∈ decodeChunk chunk → trimJs line ≠ []) ∧
    (∀ chunk line, line ∈ decodeChunk chunk →
      ∃ raw ∈ splitOnNl chunk,
        raw.length > 8 ∧ line = stripDockerTimestamp (raw.drop 8)) := by
  refine ⟨by decide, ?_, ?_⟩
  · intro chunk line hmem
    rcases List.mem_filterMap.mp hmem with ⟨raw, _, hp⟩
    by_cases h1 : raw.length > 8
    · by_cases h2 : trimJs (stripDockerTimestamp (raw.drop 8)) = []
      · simp [processLine, h1, h2] at hp
      · simp [processLine, h1, h2] at hp
        exact hp ▸ h2
    · simp [processLine, h1] at hp
  · intro chunk line hmem
    rcases List.mem_filterMap.mp hmem with ⟨raw, hraw, hp⟩
    by_cases h1 : raw.length > 8
    · by_cases h2 : trimJs (stripDockerTimestamp (raw.drop 8)) = []
      · simp [processLine, h1, h2] at hp
      · simp [processLine, h1, h2] at hp
        exact ⟨raw, hraw, h1, hp.symm⟩
    · simp [processLine, h1] at hp

/-- Witness for `decodeChunk_spec`: the delivered line "hello" of the
example chunk is non-blank and is the example's single newline segment
with header and timestamp stripped. -/
theorem decodeChunk_spec_witness :
    trimJs "hello".data ≠ [] ∧
      ∃ raw ∈ splitOnNl exampleChunk,
        raw.length > 8 ∧ "hello".data = stripDockerTimestamp (raw.drop 8) :=
  ⟨decodeChunk_spec.2.1 exampleChunk "hello".data (by decide),
   decodeChunk_spec.2.2 exampleChunk "hello".data (by decide)⟩

/-! ## Host-to-engine path translation (docker.service.ts:16-30) -/

/-- Modelled from Node's `path.resolve` on Windows (`path.win32.resolve`),
restricted to the rooted inputs relevant here: a drive-absolute path
(`C:\...`, also with forward slashes) resolves to itself with separators
normalized to backslashes; a rooted path without a drive letter (`\...` or
`/...`) is drive-relative and resolves against the drive of the current
working directory. -/
def winResolveRooted (cwdDrive : Char) (p : List Char) : List Char :=
  let norm := p.map fun c => if c = '/' then '\\' else c
  match norm with
  | c1 :: c2 :: rest =>
    if c1.isAlpha && c2 = ':' then c1 :: c2 :: rest
    else if c1 = '\\' then cwdDrive :: ':' :: c1 :: c2 :: rest
    else c1 :: c2 :: rest
  | s => s

/-- `convertToDockerPath` (docker.service.ts:18-30), parameterized by the
platform flag and the current working directory's drive (consumed by
`path.resolve`): on non-Windows hosts return the path unchanged; on
Windows resolve it to an absolute path, replace a leading `<drive>:` by
`/<lowercase drive>` (regex `^([A-Za-z]):`), and turn every backslash into
a forward slash. -/
def convertToDockerPath (isWindows : Bool) (cwdDrive : Char) (p : List Char) :
    List Char :=
  if !isWindows then p
  else
    let absolutePath := winResolveRooted cwdDrive p
    let dropDrive : List Char :=
      match absolutePath with
      | c1 :: c2 :: rest =>
        if c1.isAlpha && c2 = ':' then '/' :: c1.toLower :: rest
        else c1 :: c2 :: rest
      | s => s
    dropDrive.map fun c => if c = '\\' then '/' else c

/-- C7 counterexample: on the Windows host (cwd on drive C) the translation
of `C:\Users\x` is `/c/Users/x`, but translating that output again yields
`/c/c/Users/x` — `path.resolve` treats the
already-translated path as drive-relative and prepends the cwd drive — so
re-translation neither returns the path unchanged nor rejects it. -/
theorem convertToDockerPath_not_idempotent :
    convertToDockerPath true 'C' "C:\\Users\\x".data = "/c/Users/x".data ∧
    convertToDockerPath true 'C' "/c/Users/x".data = "/c/c/Users/x".data ∧
    convertToDockerPath true 'C' (convertToDockerPath true 'C' "C:\\Users\\x".data)
      ≠ convertToDockerPath true 'C' "C:\\Users\\x".data := by
  refine ⟨by decide, by decide, by decide⟩

/-- C7 (amended): the translation is deterministic given the platform and
the cwd drive; on non-Windows hosts it is the identity and hence
idempotent; on Windows it is not idempotent — re-translating an
already-translated path prepends the cwd drive again. -/
theorem convertToDockerPath_behavior :
    (∀ (d : Char) (p : List Char), convertToDockerPath false d p = p) ∧
    (∀ (d : Char) (p : List Char),
      convertToDockerPath false d (convertToDockerPath false d p)
        = convertToDockerPath false d p) ∧
    convertToDockerPath true 'C' (convertToDockerPath true 'C' "C:\\Users\\x".data)
      = "/c/c/Users/x".data := by
  exact ⟨fun d p => rfl, fun d p => rfl, by decide⟩

/-! ## Record store (prisma Bot / BotEnvVar / BotStatusHistory)

The database is a list of bot records; env vars are the per-bot
`BotEnvVar` rows; status history is an append-only list. -/

/-- A `BotEnvVar` row: id, key, and the encrypted stored value. -/
structure EnvVarRec where
  id : String
  key : String
  value : String
deriving DecidableEq, Repr

/-- The fields of a prisma `Bot` row consumed by the modelled operations. -/
structure BotRec where
  id : String
  name : String
  containerName : String
  codeDirectory : String
  status : BotStatus
  containerId : Option String
  envVars : List EnvVarRec
deriving DecidableEq, Repr

/-- A `BotStatusHistory` row as created by the code (botId, status, and the
optional sampled usage figures). -/
structure HistRow where
  botId : String
  status : BotStatus
  cpuUsage : Option ℚ
  memoryUsage : Option ℚ
deriving DecidableEq, Repr

/-- The record store. -/
structure Db where
  bots : List BotRec
deriving DecidableEq, Repr

/-- `prisma.bot.findUnique({ where: { id } })`. -/
def findBot (db : Db) (id : String) : Option BotRec :=
  db.bots.find? fun b => b.id == id

/-- The shape `getBot` returns (bots.service.ts:263-281): the full bot row
with env vars projected to `{ id, key }` — values never included. -/
structure BotWithEnvKeys where
  id : String
  name : String
  containerName : String
  codeDirectory : String
  status : BotStatus
  containerId : Option String
  envVars : List (String × String)
deriving DecidableEq, Repr

/-- The projection applied by `getBot`'s prisma `include/select`. -/
def projectBot (b : BotRec) : BotWithEnvKeys :=
  ⟨b.id, b.name, b.containerName, b.codeDirectory, b.status, b.containerId,
   b.envVars.map fun e => (e.id, e.key)⟩

/-- `getBot` (bots.service.ts:263-281): throws `Bot not found` when the id
is absent, otherwise returns the bot with env vars as `{ id, key }`. -/
def getBot (db : Db) (id : String) : Except LifecycleErr BotWithEnvKeys :=
  match findBot db id with
  | none => .error .notFound
  | some b => .ok (projectBot b)

/-- `getEnvVars` (bots.service.ts:541-551): returns only `{ id, key }` of
each env var of the bot (empty when the bot has no rows). -/
def getEnvVars (db : Db) (botId : String) : List (String × String) :=
  match findBot db botId with
  | some b => b.envVars.map fun e => (e.id, e.key)
  | none => []

/-- `addEnvVar` (bots.service.ts:553-574): requires the bot to exist,
stores the value encrypted, and returns only `{ id, key }` of the created
row.  `encrypt` and the generated row id are parameters. -/
def addEnvVar (encrypt : String → String) (newId : String) (db : Db)
    (botId : String) (key value : String) :
    Except LifecycleErr (String × String) × Db :=
  match findBot db botId with
  | none => (.error .notFound, db)
  | some _ =>
    let newVar : EnvVarRec := ⟨newId, key, encrypt value⟩
    (.ok (newId, key),
     ⟨db.bots.map fun b =>
        if b.id == botId then { b with envVars := b.envVars ++ [newVar] } else b⟩)

/-! ## deleteBot (bots.service.ts:299-333) -/

/-- The externally visible side effects of `deleteBot`, in order. -/
inductive Effect
  | removedContainer (cid : String)
  | removedCodeDir (dir : String)
  | deletedRecord (botId : String)
  | webhook (event : String) (botId : String)
deriving DecidableEq, Repr

/-- Raw outcomes of the best-effort removals `deleteBot` performs. -/
structure DeleteEnv where
  removeOld : Except DockerErr Unit
  rmDirOk : Bool

/-- `deleteBot` (bots.service.ts:299-333): look the bot up (Bot not found
otherwise); best-effort remove its container when a containerId exists
(failures logged and absorbed); best-effort remove the code directory
(failures logged and absorbed); delete the record unconditionally; then
dispatch the BOT_DELETED webhook. -/
def deleteBot (env : DeleteEnv) (db : Db) (id : String) :
    Except LifecycleErr Unit × Db × List Effect :=
  match findBot db id with
  | none => (.error .notFound, db, [])
  | some bot =>
    let fx1 : List Effect :=
      match bot.containerId with
      | some cid =>
        match removeContainer env.removeOld with
        | .ok () => [.removedContainer cid]
        | .error _ => []
      | none => []
    let fx2 : List Effect :=
      if env.rmDirOk then [.removedCodeDir bot.codeDirectory] else []
    (.ok (), ⟨db.bots.filter fun b => !(b.id == id)⟩,
     fx1 ++ fx2 ++ [.deletedRecord id, .webhook "BOT_DELETED" id])

/-- Searching for an id among the records that survived its deletion finds
nothing. -/
theorem find?_filter_out_id (l : List BotRec) (id : String) :
    ((l.filter fun b => !(b.id == id)).find? fun b => b.id == id) = none := by
  rw [List.find?_eq_none]
  intro b hmem
  have h := List.of_mem_filter hmem
  simp at h ⊢
  exact h

/-- C8: whenever the bot exists, `deleteBot` succeeds — even when both the
container removal and the code-directory removal fail — the bot is no
longer retrievable via `getBot` afterwards, and the BOT_DELETED webhook is
dispatched after (never before) the record deletion. -/
theorem deleteBot_spec :
    ∀ (env : DeleteEnv) (db : Db) (id : String),
      (findBot db id).isSome →
        (deleteBot env db id).1 = .ok () ∧
        getBot (deleteBot env db id).2.1 id = .error .notFound ∧
        ∃ pre, (deleteBot env db id).2.2
          = pre ++ [.deletedRecord id, .webhook "BOT_DELETED" id] := by
  intro env db id hfound
  rcases hb : findBot db id with _ | bot
  · rw [hb] at hfound; cases hfound
  · refine ⟨by simp [deleteBot, hb], ?_, ?_⟩
    · have hnone : findBot (deleteBot env db id).2.1 id = none := by
        simp only [deleteBot, hb]
        exact find?_filter_out_id db.bots id
      simp [getBot, hnone]
    · simp only [deleteBot, hb]
      exact ⟨_, rfl⟩

/-- Witness for `deleteBot_spec`: a concrete one-bot store in which both
best-effort removals fail (engine error 500, directory removal failure);
the record is deleted, the bot is gone, and the webhook comes last. -/
theorem deleteBot_spec_witness :
    (deleteBot ⟨.error ⟨500⟩, false⟩
        ⟨[⟨"b1", "bot", "bot_x_1a2b", "/data/bots/bot_x_1a2b", .STOPPED,
           some "c1", []⟩]⟩ "b1").1 = .ok () ∧
      getBot (deleteBot ⟨.error ⟨500⟩, false⟩
        ⟨[⟨"b1", "bot", "bot_x_1a2b", "/data/bots/bot_x_1a2b", .STOPPED,
           some "c1", []⟩]⟩ "b1").2.1 "b1" = .error .notFound ∧
      ∃ pre, (deleteBot ⟨.error ⟨500⟩, false⟩
        ⟨[⟨"b1", "bot", "bot_x_1a2b", "/data/bots/bot_x_1a2b", .STOPPED,
           some "c1", []⟩]⟩ "b1").2.2
        = pre ++ [.deletedRecord "b1", .webhook "BOT_DELETED" "b1"] :=
  deleteBot_spec ⟨.error ⟨500⟩, false⟩
    ⟨[⟨"b1", "bot", "bot_x_1a2b", "/data/bots/bot_x_1a2b", .STOPPED,
       some "c1", []⟩]⟩ "b1" (by decide)

/-! ## Status Reconciler sweep (analytics.service.ts:163-188) -/

/-- `recordBotStats` (analytics.service.ts:163-188): for every bot recorded
RUNNING with a non-null containerId, sample its container stats
(`getContainerStats`, which absorbs retrieval errors into `none`) and, when
a sample is obtained, append a StatusHistory row; bots whose sampling
fails are skipped.  The per-container raw engine outcome is the oracle
`statsOf`.  The function performs no write to any bot record. -/
def recordBotStats (statsOf : String → Except DockerErr RawStats)
    (db : Db) (hist : List HistRow) : Db × List HistRow :=
  let runningBots := db.bots.filter fun b =>
    b.status == .RUNNING && b.containerId.isSome
  (db, hist ++ runningBots.filterMap fun b =>
    match b.containerId with
    | none => none
    | some cid =>
      match getContainerStats (statsOf cid) with
      | some stats =>
        some ⟨b.id, .RUNNING, some stats.cpuUsage, some stats.memoryUsage⟩
      | none => none)

/-- C9: the sweep never writes any bot record (the store is returned
unchanged for every oracle); it only appends rows, each appended row has
status RUNNING and stems from a bot recorded RUNNING with a containerId;
and sampling failures are isolated: every bot whose stats retrieval
succeeds gets its row appended no matter how the oracle behaves on the
other bots. -/
theorem recordBotStats_spec :
    ∀ (statsOf : String → Except DockerErr RawStats) (db : Db) (hist : List HistRow),
      (recordBotStats statsOf db hist).1 = db ∧
      (∃ rows, (recordBotStats statsOf db hist).2 = hist ++ rows ∧
        ∀ r ∈ rows, r.status = .RUNNING ∧
          ∃ b ∈ db.bots, b.status = .RUNNING ∧ b.containerId.isSome ∧ r.botId = b.id) ∧
      (∀ b ∈ db.bots, ∀ cid stats, b.status = .RUNNING → b.containerId = some cid →
        getContainerStats (statsOf cid) = some stats →
        (⟨b.id, .RUNNING, some stats.cpuUsage, some stats.memoryUsage⟩ : HistRow)
          ∈ (recordBotStats statsOf db hist).2) := by
  intro statsOf db hist
  refine ⟨rfl, ⟨_, rfl, ?_⟩, ?_⟩
  · intro r hr
    rcases List.mem_filterMap.mp hr with ⟨b, hbmem, hsome⟩
    have hflt := List.of_mem_filter hbmem
    simp only [Bool.and_eq_true, beq_iff_eq] at hflt
    rcases hc : b.containerId with _ | cid
    · rw [hc] at hflt; cases hflt.2
    · simp only [hc] at hsome
      rcases hst : getContainerStats (statsOf cid) with _ | stats
      · simp only [hst] at hsome
        cases hsome
      · simp only [hst] at hsome
        cases hsome
        exact ⟨rfl, b, List.mem_of_mem_filter hbmem, hflt.1, by simp [hc], rfl⟩
  · intro b hbmem cid stats hrun hcid hst
    refine List.mem_append_right _ (List.mem_filterMap.mpr ⟨b, ?_, ?_⟩)
    · exact List.mem_filter.mpr ⟨hbmem, by simp [hrun, hcid]⟩
    · simp [hcid, hst]

/-- Witness for `recordBotStats_spec`: a concrete two-bot store where the
oracle fails (engine error 500) for bot b1's container but succeeds for
bot b2's; b2's history row is appended anyway and the store is unchanged. -/
theorem recordBotStats_spec_witness :
    (⟨"b2", .RUNNING, some 80, some 200⟩ : HistRow) ∈
      (recordBotStats
        (fun cid => if cid = "c2" then .ok ⟨200, 0, 1000, 0, 4, 209715200, 209715200⟩
                    else .error ⟨500⟩)
        ⟨[⟨"b1", "one", "bot_one_1111", "/data/bots/bot_one_1111", .RUNNING,
            some "c1", []⟩,
          ⟨"b2", "two", "bot_two_2222", "/data/bots/bot_two_2222", .RUNNING,
            some "c2", []⟩]⟩ []).2 := by
  have h := recordBotStats_spec
    (fun cid => if cid = "c2" then .ok ⟨200, 0, 1000, 0, 4, 209715200, 209715200⟩
                else .error ⟨500⟩)
    ⟨[⟨"b1", "one", "bot_one_1111", "/data/bots/bot_one_1111", .RUNNING,
        some "c1", []⟩,
      ⟨"b2", "two", "bot_two_2222", "/data/bots/bot_two_2222", .RUNNING,
        some "c2", []⟩]⟩ []
  refine h.2.2
    ⟨"b2", "two", "bot_two_2222", "/data/bots/bot_two_2222", .RUNNING,
      some "c2", []⟩ (by simp) "c2" ⟨80, 200, 200⟩ rfl rfl ?_
  simp only [if_pos rfl, getContainerStats]
  norm_num [round2, ContainerStats.mk.injEq]

/-! ## Env-var read paths never expose values (C10) -/

/-- Erase the stored (encrypted) env-var value, keeping id and key. -/
def eraseEnvValue (e : EnvVarRec) : EnvVarRec :=
  { e with value := "" }

/-- Erase all env-var values of a bot record. -/
def eraseEnvValues (b : BotRec) : BotRec :=
  { b with envVars := b.envVars.map eraseEnvValue }

/-- Two stores differ at most in stored env-var values. -/
def sameUpToEnvValues (db db' : Db) : Prop :=
  db.bots.map eraseEnvValues = db'.bots.map eraseEnvValues

/-- Looking up the same id in two stores that differ only in env-var
values yields results that again differ only in env-var values. -/
theorem findBot_congr (id : String) :
    ∀ (l l' : List BotRec), l.map eraseEnvValues = l'.map eraseEnvValues →
      ((l.find? fun b => b.id == id).map eraseEnvValues)
        = ((l'.find? fun b => b.id == id).map eraseEnvValues) := by
  intro l
  induction l with
  | nil =>
    intro l' h
    cases l' with
    | nil => rfl
    | cons b' t' => simp at h
  | cons b t ih =>
    intro l' h
    cases l' with
    | nil => simp at h
    | cons b' t' =>
      simp only [List.map_cons, List.cons.injEq] at h
      obtain ⟨hb, ht⟩ := h
      have hid : b.id = b'.id := by
        have := congrArg BotRec.id hb
        simpa [eraseEnvValues] using this
      by_cases hcase : b.id = id
      · have hbeq : (b.id == id) = true := beq_iff_eq.mpr hcase
        have hbeq' : (b'.id == id) = true := beq_iff_eq.mpr (hid ▸ hcase)
        simp [List.find?, hbeq, hbeq', hb]
      · have hbeq : (b.id == id) = false := beq_eq_false_iff_ne.mpr hcase
        have hbeq' : (b'.id == id) = false := beq_eq_false_iff_ne.mpr (hid ▸ hcase)
        simpa [List.find?, hbeq, hbeq'] using ih t' ht

/-- The `getBot` projection only reads fields preserved by value
erasure. -/
theorem projectBot_eraseEnvValues (b : BotRec) :
    projectBot (eraseEnvValues b) = projectBot b := by
  simp [projectBot, eraseEnvValues, eraseEnvValue, List.map_map, Function.comp]

/-- C10: `getEnvVars`, `getBot` and `addEnvVar` never expose stored
env-var values, plaintext or ciphertext: their outputs only carry env-var
ids and keys, so two stores that differ only in env-var values produce
identical outputs from all three operations. -/
theorem envVar_noninterference :
    ∀ (db db' : Db), sameUpToEnvValues db db' →
      (∀ id, getEnvVars db id = getEnvVars db' id) ∧
      (∀ id, getBot db id = getBot db' id) ∧
      (∀ (encrypt : String → String) (newId id key value : String),
        (addEnvVar encrypt newId db id key value).1
          = (addEnvVar encrypt newId db' id key value).1) := by
  intro db db' h
  have hfind : ∀ id, ((findBot db id).map eraseEnvValues)
      = ((findBot db' id).map eraseEnvValues) :=
    fun id => findBot_congr id db.bots db'.bots h
  refine ⟨?_, ?_, ?_⟩
  · intro id
    have hid := hfind id
    rcases h1 : findBot db id with _ | b <;> rcases h2 : findBot db' id with _ | b' <;>
      rw [h1, h2] at hid <;> simp only [Option.map_some', Option.map_none'] at hid
    · simp [getEnvVars, h1, h2]
    · cases hid
    · cases hid
    · have : b.envVars.map (fun e => (e.id, e.key))
          = b'.envVars.map fun e => (e.id, e.key) := by
        have := congrArg (fun r => r.envVars.map fun e => (e.id, e.key))
          (Option.some.inj hid)
        simpa [eraseEnvValues, eraseEnvValue, List.map_map, Function.comp] using this
      simp [getEnvVars, h1, h2, this]
  · intro id
    have hid := hfind id
    rcases h1 : findBot db id with _ | b <;> rcases h2 : findBot db' id with _ | b' <;>
      rw [h1, h2] at hid <;> simp only [Option.map_some', Option.map_none'] at hid
    · simp [getBot, h1, h2]
    · cases hid
    · cases hid
    · have : projectBot b = projectBot b' := by
        rw [← projectBot_eraseEnvValues b, ← projectBot_eraseEnvValues b',
          Option.some.inj hid]
      simp [getBot, h1, h2, this]
  · intro encrypt newId id key value
    have hid := hfind id
    rcases h1 : findBot db id with _ | b <;> rcases h2 : findBot db' id with _ | b' <;>
      rw [h1, h2] at hid <;> simp only [Option.map_some', Option.map_none'] at hid
    · simp [addEnvVar, h1, h2]
    · cases hid
    · cases hid
    · simp [addEnvVar, h1, h2]

/-- Witness for `envVar_noninterference`: two concrete one-bot stores
whose only difference is the stored secret value produce identical
outputs; in particular `getEnvVars` returns just (id, key). -/
theorem envVar_noninterference_witness :
    getEnvVars ⟨[⟨"b1", "bot", "bot_x_1a2b", "/data/bots/bot_x_1a2b",
        .STOPPED, none, [⟨"e1", "TOKEN", "cipher-A"⟩]⟩]⟩ "b1"
      = getEnvVars ⟨[⟨"b1", "bot", "bot_x_1a2b", "/data/bots/bot_x_1a2b",
        .STOPPED, none, [⟨"e1", "TOKEN", "cipher-B"⟩]⟩]⟩ "b1" :=
  (envVar_noninterference
    ⟨[⟨"b1", "bot", "bot_x_1a2b", "/data/bots/bot_x_1a2b",
        .STOPPED, none, [⟨"e1", "TOKEN", "cipher-A"⟩]⟩]⟩
    ⟨[⟨"b1", "bot", "bot_x_1a2b", "/data/bots/bot_x_1a2b",
        .STOPPED, none, [⟨"e1", "TOKEN", "cipher-B"⟩]⟩]⟩
    (by simp [sameUpToEnvValues, eraseEnvValues, eraseEnvValue])).1 "b1"

/-! ## Concurrency: two concurrent start calls for the same bot (C4)

bots.service.ts has no per-bot mutex or queue; `startBot` is a sequence of
awaited calls, each an atomic suspension point, and two invocations for
the same bot id may interleave arbitrarily.  The model below runs two
`startBot` invocations (fresh container ids "cA" and "cB", same fixed
containerName) against a healthy engine: every engine call succeeds
except `createContainer`, which the engine rejects with a name conflict
(409) when a container with the bot's name already exists, and
`container.start`, which needs the container to still exist.  Pure
in-memory computation between two awaits belongs to the preceding step. -/

namespace TwoStarts

/-- A container bearing this bot's (unique, never regenerated)
containerName, as held by the engine. -/
structure Ctr where
  cid : String
  running : Bool
deriving DecidableEq, Repr

/-- The persisted bot-row fields `startBot` reads and writes. -/
structure BotRow where
  status : BotStatus
  containerId : Option String
deriving DecidableEq, Repr

/-- How a start invocation can end. -/
inductive StartErr
  | alreadyRunning
  | nameConflict
  | missingContainer
deriving DecidableEq, Repr

/-- Program counter of one in-flight `startBot` invocation
(bots.service.ts:335-400); each constructor names the next awaited call. -/
inductive Phase
  | load
  | check (st : BotStatus) (cid : Option String)
  | removeOld (cid : Option String)
  | create
  | start (newCid : String)
  | persist (newCid : String)
  | fail (e : StartErr)
  | done (r : Except StartErr Unit)
deriving DecidableEq, Repr

/-- One atomic step of one `startBot` invocation with fresh container id
`myCid`: `load` reads the row; `check` rejects AlreadyRunning (throw
before the try block: no ERROR write) or persists STARTING; `removeOld`
force-removes the stale container (404-normalized, cannot fail);
`create` adds the container unless the name is taken (409); `start` marks
it running if it still exists; `persist` writes RUNNING + the new
containerId; `fail` is the catch block's ERROR write before rethrowing. -/
def stepProg (myCid : String) (row : BotRow) (engine : List Ctr) :
    Phase → BotRow × List Ctr × Phase
  | .load => (row, engine, .check row.status row.containerId)
  | .check st cid =>
    if st = .RUNNING then (row, engine, .done (.error .alreadyRunning))
    else ({ row with status := .STARTING }, engine, .removeOld cid)
  | .removeOld cid =>
    match cid with
    | some c => (row, engine.filter fun k => !(k.cid == c), .create)
    | none => (row, engine, .create)
  | .create =>
    if engine.isEmpty then (row, engine ++ [⟨myCid, false⟩], .start myCid)
    else (row, engine, .fail .nameConflict)
  | .start newCid =>
    if engine.any fun k => k.cid == newCid then
      (row, engine.map fun k => if k.cid == newCid then { k with running := true } else k,
       .persist newCid)
    else (row, engine, .fail .missingContainer)
  | .persist newCid =>
    ({ status := .RUNNING, containerId := some newCid }, engine, .done (.ok ()))
  | .fail e => ({ row with status := .ERROR }, engine, .done (.error e))
  | .done r => (row, engine, .done r)

/-- The interleaved system: the shared bot row and engine, and the two
invocations A (container id "cA") and B (container id "cB"). -/
structure Config where
  row : BotRow
  engine : List Ctr
  a : Phase
  b : Phase
deriving DecidableEq, Repr

/-- Scheduler step: `true` advances invocation A, `false` advances B. -/
def step (c : Config) : Bool → Config
  | true =>
    let r := stepProg "cA" c.row c.engine c.a
    { row := r.1, engine := r.2.1, a := r.2.2, b := c.b }
  | false =>
    let r := stepProg "cB" c.row c.engine c.b
    { row := r.1, engine := r.2.1, a := c.a, b := r.2.2 }

/-- Both invocations enter on a freshly created bot (STOPPED, no
containerId, no container in the engine). -/
def initConfig : Config := ⟨⟨.STOPPED, none⟩, [], .load, .load⟩

/-- Run a schedule from the initial configuration. -/
def run (sched : List Bool) : Config := sched.foldl step initConfig

/-- The interleaving in which B reads the bot row, then A completes its
whole start, then B resumes. -/
def raceSched : List Bool :=
  [false] ++ List.replicate 6 true ++ List.replicate 4 false

/-- C4 counterexample: the lifecycle operations are not serialized — under
`raceSched` both calls are in flight at once, and the second call neither
waits and succeeds as a no-op nor fails with AlreadyRunning: A completes
successfully, B fails with the engine's name-conflict error and overwrites
the bot's status to ERROR while A's container is live, leaving the
persisted record (ERROR) inconsistent with the running container. -/
theorem twoStarts_not_serialized :
    (run raceSched).a = .done (.ok ()) ∧
    (run raceSched).b = .done (.error .nameConflict) ∧
    (run raceSched).b ≠ .done (.error .alreadyRunning) ∧
    (run raceSched).row.status = .ERROR ∧
    (run raceSched).engine = [⟨"cA", true⟩] := by
  refine ⟨by decide, by decide, by decide, by decide, by decide⟩

/-- One step never grows the engine beyond one container for this bot's
name: removal filters, creation is guarded by emptiness, starting maps. -/
theorem stepProg_engine_le (myCid : String) (row : BotRow) (engine : List Ctr)
    (ph : Phase) (h : engine.length ≤ 1) :
    (stepProg myCid row engine ph).2.1.length ≤ 1 := by
  cases ph with
  | load => exact h
  | check st cid =>
    by_cases hr : st = .RUNNING <;> simp [stepProg, hr, h]
  | removeOld cid =>
    cases cid with
    | none => exact h
    | some c => exact le_trans (List.length_filter_le _ _) h
  | create =>
    by_cases he : engine.isEmpty
    · have hnil : engine = [] := List.isEmpty_iff.mp he
      simp [stepProg, he, hnil]
    · simp [stepProg, he, h]
  | start newCid =>
    by_cases hs : engine.any fun k => k.cid == newCid <;>
      simpa [stepProg, hs] using h
  | persist newCid => exact h
  | fail e => exact h
  | done r => exact h

/-- C4 (amended): the controller does not serialize concurrent starts, but
because the engine rejects duplicate container names and the bot's
containerName is fixed, every interleaving of the two start calls keeps at
most one container — live or not — in existence for the bot; two live
containers are never produced. -/
theorem twoStarts_at_most_one_container :
    ∀ sched : List Bool, (run sched).engine.length ≤ 1 := by
  have hstep : ∀ (c : Config) (x : Bool),
      c.engine.length ≤ 1 → (step c x).engine.length ≤ 1 := by
    intro c x h
    cases x
    · exact stepProg_engine_le "cB" c.row c.engine c.b h
    · exact stepProg_engine_le "cA" c.row c.engine c.a h
  have hfold : ∀ (l : List Bool) (c : Config),
      c.engine.length ≤ 1 → (l.foldl step c).engine.length ≤ 1 := by
    intro l
    induction l with
    | nil => intro c h; exact h
    | cons x t ih => intro c h; exact ih (step c x) (hstep c x h)
  intro sched
  exact hfold sched initConfig (by decide)

end TwoStarts

end NexusControl
